import Mathlib

/-
Verification of the KILT DIP Merkle-proof verifier
(`crates/kilt-dip-primitives/src/merkle.rs`).

The Rust module is shallowly embedded below: every leaf type, the SCALE
key/value encoders, the error enumeration, and the fold performed by
`verify_dip_merkle_proof` are translated into executable Lean definitions.
Machine bytes are modelled as natural numbers and the generic SCALE
`Encode` bounds of the Rust function become explicit encoding functions.
The external trie-proof check (`sp_trie::verify_trie_proof`) is an opaque
parameter of the verifier, exactly as the `Hasher`-generic call site treats
it; a concrete model of it, written from the specification, is provided for
the claims that need one.
-/

namespace KiltDip

/-- Byte strings (`Vec<u8>` on the Rust side) are modelled as lists of
natural numbers. -/
abbrev Bytes := List Nat

/-- Modelled from the spec: `DidVerificationKeyRelationship` lives in the
external `did` crate, whose sources are not part of this repository; §3 of
the specification describes it as a small closed set of verification
relationships (Authentication, CapabilityDelegation, AssertionMethod, ...). -/
inductive DidVerificationKeyRelationship where
  | Authentication
  | CapabilityDelegation
  | CapabilityInvocation
  | AssertionMethod
  deriving DecidableEq

/-- Modelled from the spec: the SCALE encoding of the external
`DidVerificationKeyRelationship` enumeration, one index byte per variant. -/
def DidVerificationKeyRelationship.scaleEncode : DidVerificationKeyRelationship → Bytes
  | .Authentication => [0]
  | .CapabilityDelegation => [1]
  | .CapabilityInvocation => [2]
  | .AssertionMethod => [3]

/-- Relationship of a key to a DID Document (`DidKeyRelationship`,
merkle.rs lines 52-56). -/
inductive DidKeyRelationship where
  | Encryption
  | Verification (rel : DidVerificationKeyRelationship)
  deriving DecidableEq

/-- SCALE encoding of `DidKeyRelationship`: the derived enum codec writes
one index byte followed by the variant payload. -/
def DidKeyRelationship.scaleEncode : DidKeyRelationship → Bytes
  | .Encryption => [0]
  | .Verification rel => 1 :: rel.scaleEncode

/-- Modelled from the spec: `DidPublicKeyDetails` lives in the external
`did` crate; §3 describes a DID-key leaf value as "key material +
provenance (creation height, owning account)". The key material is either
raw public-key bytes or an owning account reference. -/
structure DidPublicKeyDetails (BlockNumber AccountId : Type) where
  key : Bytes ⊕ AccountId
  block_number : BlockNumber
  deriving DecidableEq

/-- The key of a Merkle leaf revealing a DID key (`DidKeyMerkleKey`,
merkle.rs line 78): a pair of a key identifier and its relationship. -/
structure DidKeyMerkleKey (KeyId : Type) where
  keyId : KeyId
  relationship : DidKeyRelationship
  deriving DecidableEq

/-- The value of a Merkle leaf revealing a DID key (`DidKeyMerkleValue`,
merkle.rs line 87). -/
structure DidKeyMerkleValue (BlockNumber AccountId : Type) where
  details : DidPublicKeyDetails BlockNumber AccountId
  deriving DecidableEq

/-- The key of a Merkle leaf revealing the web3name (`Web3NameMerkleKey`,
merkle.rs line 99). -/
structure Web3NameMerkleKey (Name : Type) where
  web3Name : Name
  deriving DecidableEq

/-- The value of a Merkle leaf revealing the web3name
(`Web3NameMerkleValue`, merkle.rs line 108): the block number at which the
name was claimed. -/
structure Web3NameMerkleValue (BlockNumber : Type) where
  blockNumber : BlockNumber
  deriving DecidableEq

/-- The key of a Merkle leaf revealing a linked account
(`LinkedAccountMerkleKey`, merkle.rs line 118). -/
structure LinkedAccountMerkleKey (LinkedAccountId : Type) where
  accountId : LinkedAccountId
  deriving DecidableEq

/-- The value of a Merkle leaf revealing a linked account
(`LinkedAccountMerkleValue`, merkle.rs line 128): a fieldless marker whose
SCALE encoding is empty. -/
structure LinkedAccountMerkleValue where
  deriving DecidableEq

/-- All possible Merkle leaf types revealed in a DIP identity proof
(`RevealedDidMerkleProofLeaf`, merkle.rs lines 139-143). -/
inductive RevealedDidMerkleProofLeaf (KeyId AccountId BlockNumber Name LinkedAccountId : Type) where
  | DidKey (key : DidKeyMerkleKey KeyId) (value : DidKeyMerkleValue BlockNumber AccountId)
  | Web3Name (key : Web3NameMerkleKey Name) (value : Web3NameMerkleValue BlockNumber)
  | LinkedAccount (key : LinkedAccountMerkleKey LinkedAccountId) (value : LinkedAccountMerkleValue)
  deriving DecidableEq

variable {KeyId AccountId BlockNumber Name LinkedAccountId : Type}

/-- `RevealedDidMerkleProofLeaf::encoded_key` (merkle.rs lines 172-178):
the SCALE encoding of the leaf's key component. The Rust function is
generic over `Encode` bounds on `KeyId`, `Web3Name` and `LinkedAccountId`;
those instances are the explicit encoding functions here. A derived SCALE
codec for a single-field or two-field tuple struct concatenates the
encodings of its fields, so `DidKeyMerkleKey` encodes as the key id
followed by the relationship, and the other two keys encode as their only
field. -/
def RevealedDidMerkleProofLeaf.encoded_key
    (encKeyId : KeyId → Bytes) (encName : Name → Bytes) (encLinkedAccountId : LinkedAccountId → Bytes) :
    RevealedDidMerkleProofLeaf KeyId AccountId BlockNumber Name LinkedAccountId → Bytes
  | .DidKey key _ => encKeyId key.keyId ++ key.relationship.scaleEncode
  | .Web3Name key _ => encName key.web3Name
  | .LinkedAccount key _ => encLinkedAccountId key.accountId

/-- `RevealedDidMerkleProofLeaf::encoded_value` (merkle.rs lines 187-193):
the SCALE encoding of the leaf's value component. `LinkedAccountMerkleValue`
is a fieldless struct, so its derived encoding is the empty byte string. -/
def RevealedDidMerkleProofLeaf.encoded_value
    (encDetails : DidPublicKeyDetails BlockNumber AccountId → Bytes) (encBlockNumber : BlockNumber → Bytes) :
    RevealedDidMerkleProofLeaf KeyId AccountId BlockNumber Name LinkedAccountId → Bytes
  | .DidKey _ value => encDetails value.details
  | .Web3Name _ value => encBlockNumber value.blockNumber
  | .LinkedAccount _ _ => []

/-- A DIP Merkle proof (`DidMerkleProof`, merkle.rs lines 31-35): opaque
blinded trie nodes plus the ordered list of revealed leaves. -/
structure DidMerkleProof (BlindedValues Leaf : Type) where
  blinded : BlindedValues
  revealed : List Leaf
  deriving DecidableEq

/-- A DID key after successful verification (`RevealedDidKey`,
merkle.rs lines 199-207). -/
structure RevealedDidKey (KeyId BlockNumber AccountId : Type) where
  id : KeyId
  relationship : DidKeyRelationship
  details : DidPublicKeyDetails BlockNumber AccountId
  deriving DecidableEq

/-- A web3name after successful verification (`RevealedWeb3Name`,
merkle.rs lines 212-218). -/
structure RevealedWeb3Name (Name BlockNumber : Type) where
  web3_name : Name
  claimed_at : BlockNumber
  deriving DecidableEq

/-- The aggregate produced on successful verification
(`RevealedDidMerkleProofLeaves`, merkle.rs lines 223-240). The Rust
`BoundedVec` fields are modelled as plain lists; the capacity bounds,
enforced by `tryPush` during aggregation, are established as theorems
below instead of being carried in the type. -/
structure RevealedDidMerkleProofLeaves (KeyId AccountId BlockNumber Name LinkedAccountId : Type) where
  did_keys : List (RevealedDidKey KeyId BlockNumber AccountId)
  web3_name : Option (RevealedWeb3Name Name BlockNumber)
  linked_accounts : List LinkedAccountId
  deriving DecidableEq

/-- The closed error set of the verifier (`DidMerkleProofVerifierError`,
merkle.rs lines 266-270). -/
inductive DidMerkleProofVerifierError where
  | InvalidMerkleProof
  | TooManyRevealedKeys
  | TooManyRevealedAccounts
  deriving DecidableEq

/-- `impl From<DidMerkleProofVerifierError> for u8` (merkle.rs lines
272-280): the stable numeric code of each error kind. -/
def DidMerkleProofVerifierError.toU8 : DidMerkleProofVerifierError → Nat
  | .InvalidMerkleProof => 0
  | .TooManyRevealedKeys => 1
  | .TooManyRevealedAccounts => 2

/-- `BoundedVec::try_push`: appends to the back iff the current length is
still below the capacity bound, signalling overflow with `none`. -/
def tryPush (bound : Nat) (l : List α) (x : α) : Option (List α) :=
  if l.length < bound then some (l ++ [x]) else none

/-- The accumulator threaded through the verifier's try_fold
(merkle.rs lines 361-370): the keys collected so far, the current optional
web3name, and the linked accounts collected so far. -/
abbrev FoldAcc (KeyId AccountId BlockNumber Name LinkedAccountId : Type) :=
  List (RevealedDidKey KeyId BlockNumber AccountId) ×
    Option (RevealedWeb3Name Name BlockNumber) × List LinkedAccountId

/-- One step of the verifier's try_fold (merkle.rs lines 371-408):
a `DidKey` leaf is pushed onto the bounded key list (overflow ⇒
`TooManyRevealedKeys`), a `Web3Name` leaf overwrites the current optional
web3name unconditionally, and a `LinkedAccount` leaf is pushed onto the
bounded account list (overflow ⇒ `TooManyRevealedAccounts`). -/
def processLeaf (maxKeys maxAccounts : Nat)
    (acc : FoldAcc KeyId AccountId BlockNumber Name LinkedAccountId)
    (leaf : RevealedDidMerkleProofLeaf KeyId AccountId BlockNumber Name LinkedAccountId) :
    Except DidMerkleProofVerifierError (FoldAcc KeyId AccountId BlockNumber Name LinkedAccountId) :=
  match acc, leaf with
  | (keys, web3Name, linkedAccounts), .DidKey key value =>
    match tryPush maxKeys keys ⟨key.keyId, key.relationship, value.details⟩ with
    | some keys2 => .ok (keys2, web3Name, linkedAccounts)
    | none => .error .TooManyRevealedKeys
  | (keys, _, linkedAccounts), .Web3Name key value =>
    .ok (keys, some ⟨key.web3Name, value.blockNumber⟩, linkedAccounts)
  | (keys, web3Name, linkedAccounts), .LinkedAccount key _ =>
    match tryPush maxAccounts linkedAccounts key.accountId with
    | some linkedAccounts2 => .ok (keys, web3Name, linkedAccounts2)
    | none => .error .TooManyRevealedAccounts

/-- `Iterator::try_fold` over a list: folds from the left, stopping at the
first step that reports an error. -/
def tryFold (f : s → α → Except ε s) : s → List α → Except ε s
  | acc, [] => .ok acc
  | acc, a :: l =>
    match f acc a with
    | .ok acc2 => tryFold f acc2 l
    | .error e => .error e

/-- The leaf-aggregation phase of `verify_dip_merkle_proof` (merkle.rs
lines 361-415): the try_fold over the revealed leaves, starting from empty
collections, repackaged into the result structure on success. -/
def aggregateLeaves (maxKeys maxAccounts : Nat)
    (revealed : List (RevealedDidMerkleProofLeaf KeyId AccountId BlockNumber Name LinkedAccountId)) :
    Except DidMerkleProofVerifierError
      (RevealedDidMerkleProofLeaves KeyId AccountId BlockNumber Name LinkedAccountId) :=
  match tryFold (processLeaf maxKeys maxAccounts) ([], none, []) revealed with
  | .error e => .error e
  | .ok (didKeys, web3Name, linkedAccounts) => .ok ⟨didKeys, web3Name, linkedAccounts⟩

/-- The `proof_leaves` list built in `verify_dip_merkle_proof`
(merkle.rs lines 344-348): each revealed leaf contributes its encoded key
paired with `some` of its encoded value. -/
def proofLeavesOf
    (encKeyId : KeyId → Bytes) (encName : Name → Bytes) (encLinkedAccountId : LinkedAccountId → Bytes)
    (encDetails : DidPublicKeyDetails BlockNumber AccountId → Bytes) (encBlockNumber : BlockNumber → Bytes)
    (revealed : List (RevealedDidMerkleProofLeaf KeyId AccountId BlockNumber Name LinkedAccountId)) :
    List (Bytes × Option Bytes) :=
  revealed.map fun leaf =>
    (leaf.encoded_key encKeyId encName encLinkedAccountId,
      some (leaf.encoded_value encDetails encBlockNumber))

/-- `verify_dip_merkle_proof` (merkle.rs lines 306-416). The external
`sp_trie::verify_trie_proof` call is the injected `trieVerify` capability:
it receives the trusted commitment (root), the blinded nodes and the
encoded key/value pairs, and reports failure through an arbitrary error
type `E`, which the verifier collapses to `InvalidMerkleProof` exactly as
the `map_err` on line 354 does. On trie success the revealed leaves are
folded into the bounded aggregate. -/
def verify_dip_merkle_proof {Root BlindedValues E : Type}
    (trieVerify : Root → BlindedValues → List (Bytes × Option Bytes) → Except E Unit)
    (encKeyId : KeyId → Bytes) (encName : Name → Bytes) (encLinkedAccountId : LinkedAccountId → Bytes)
    (encDetails : DidPublicKeyDetails BlockNumber AccountId → Bytes) (encBlockNumber : BlockNumber → Bytes)
    (maxKeys maxAccounts : Nat) (identityCommitment : Root)
    (proof : DidMerkleProof BlindedValues
      (RevealedDidMerkleProofLeaf KeyId AccountId BlockNumber Name LinkedAccountId)) :
    Except DidMerkleProofVerifierError
      (RevealedDidMerkleProofLeaves KeyId AccountId BlockNumber Name LinkedAccountId) :=
  match trieVerify identityCommitment proof.blinded
      (proofLeavesOf encKeyId encName encLinkedAccountId encDetails encBlockNumber proof.revealed) with
  | .error _ => .error .InvalidMerkleProof
  | .ok _ => aggregateLeaves maxKeys maxAccounts proof.revealed

/-- Specification-side characterization: the decoded DID keys of a revealed
sequence, i.e. the subsequence of `DidKey` leaves, decoded, in proof order. -/
def didKeysOf
    (revealed : List (RevealedDidMerkleProofLeaf KeyId AccountId BlockNumber Name LinkedAccountId)) :
    List (RevealedDidKey KeyId BlockNumber AccountId) :=
  revealed.filterMap fun leaf =>
    match leaf with
    | .DidKey key value => some ⟨key.keyId, key.relationship, value.details⟩
    | _ => none

/-- Specification-side characterization: the linked-account identifiers of a
revealed sequence, i.e. the subsequence of `LinkedAccount` leaves' ids, in
proof order. -/
def linkedOf
    (revealed : List (RevealedDidMerkleProofLeaf KeyId AccountId BlockNumber Name LinkedAccountId)) :
    List LinkedAccountId :=
  revealed.filterMap fun leaf =>
    match leaf with
    | .LinkedAccount key _ => some key.accountId
    | _ => none

/-- The decoded web3name claim of a single leaf, when the leaf is a
`Web3Name` leaf. -/
def web3Of
    (leaf : RevealedDidMerkleProofLeaf KeyId AccountId BlockNumber Name LinkedAccountId) :
    Option (RevealedWeb3Name Name BlockNumber) :=
  match leaf with
  | .Web3Name key value => some ⟨key.web3Name, value.blockNumber⟩
  | _ => none

/-- Specification-side characterization: the decoded form of the last
`Web3Name` leaf of a revealed sequence, `none` when there is no such leaf. -/
def lastWeb3Of
    (revealed : List (RevealedDidMerkleProofLeaf KeyId AccountId BlockNumber Name LinkedAccountId)) :
    Option (RevealedWeb3Name Name BlockNumber) :=
  (revealed.filterMap web3Of).getLast?

/-- Modelled from the spec: `sp_trie::verify_trie_proof` is an external
dependency, described in §4.2 as a membership check of (key, value) pairs
against a committed trie. The commitment is modelled extensionally by the
committed content itself: a claimed pair (k, some v) must be committed
exactly, and a claimed absence (k, none) requires no committed pair with
key k. The blinded nodes carry no extra information in this model. -/
def spec_verify_trie_proof (committed : List (Bytes × Bytes)) (_blinded : List Bytes)
    (items : List (Bytes × Option Bytes)) : Except Unit Unit :=
  match items.all fun kv =>
      match kv.2 with
      | some v => committed.any fun c => decide (c.1 = kv.1) && decide (c.2 = v)
      | none => committed.all fun c => ! decide (c.1 = kv.1) with
  | true => .ok ()
  | false => .error ()

/-! ### Concrete instantiation used by witnesses and counterexamples

All generic parameters are instantiated at `Nat`, with the one-byte
encoding of small naturals standing in for the SCALE encoding of a `u8`
(a legitimate instantiation of the Rust generics, which only require
`Encode + Clone`). -/

/-- Leaves with every type parameter instantiated at `Nat`. -/
abbrev NatLeaf := RevealedDidMerkleProofLeaf Nat Nat Nat Nat Nat

/-- Aggregates with every type parameter instantiated at `Nat`. -/
abbrev NatLeaves := RevealedDidMerkleProofLeaves Nat Nat Nat Nat Nat

/-- One-byte encoding of a small natural, the model of SCALE on `u8`. -/
def encNat : Nat → Bytes := fun n => [n]

/-- An arbitrary concrete encoding of the `Nat`-instantiated key details. -/
def encDetailsNat : DidPublicKeyDetails Nat Nat → Bytes := fun d => [d.block_number]

/-- A trie-check capability that accepts every input, standing in for an
`sp_trie` call on a well-formed proof. -/
def okTrie : Nat → List Bytes → List (Bytes × Option Bytes) → Except Unit Unit :=
  fun _ _ _ => .ok ()

/-- A trie-check capability that rejects every input with error code 7,
standing in for an `sp_trie` call failing for an arbitrary internal
reason. -/
def errTrie : Nat → List Bytes → List (Bytes × Option Bytes) → Except Nat Unit :=
  fun _ _ _ => .error 7

/-- A concrete `DidKey` leaf over the `Nat` instantiation. -/
def natDidKeyLeaf (id rel blockNumber : Nat) : NatLeaf :=
  .DidKey ⟨id, .Verification (if rel = 0 then .Authentication else .AssertionMethod)⟩
    ⟨⟨Sum.inl [], blockNumber⟩⟩

/-- A concrete `Web3Name` leaf over the `Nat` instantiation. -/
def natWeb3NameLeaf (name blockNumber : Nat) : NatLeaf :=
  .Web3Name ⟨name⟩ ⟨blockNumber⟩

/-- A concrete `LinkedAccount` leaf over the `Nat` instantiation. -/
def natLinkedAccountLeaf (account : Nat) : NatLeaf :=
  .LinkedAccount ⟨account⟩ ⟨⟩

/-- The `Nat`-instantiated verifier with the always-accepting trie check. -/
def natVerifyOk (maxKeys maxAccounts : Nat) (revealed : List NatLeaf) :
    Except DidMerkleProofVerifierError NatLeaves :=
  verify_dip_merkle_proof okTrie encNat encNat encNat encDetailsNat encNat
    maxKeys maxAccounts 0 ⟨[], revealed⟩

/-- The `Nat`-instantiated verifier with the always-failing trie check. -/
def natVerifyErr (maxKeys maxAccounts : Nat) (revealed : List NatLeaf) :
    Except DidMerkleProofVerifierError NatLeaves :=
  verify_dip_merkle_proof errTrie encNat encNat encNat encDetailsNat encNat
    maxKeys maxAccounts 0 ⟨[], revealed⟩

/-! ### Basic reduction lemmas -/

theorem didKeysOf_nil :
    didKeysOf ([] : List (RevealedDidMerkleProofLeaf KeyId AccountId BlockNumber Name LinkedAccountId)) = [] := rfl

theorem didKeysOf_cons_didKey (key : DidKeyMerkleKey KeyId)
    (value : DidKeyMerkleValue BlockNumber AccountId)
    (rest : List (RevealedDidMerkleProofLeaf KeyId AccountId BlockNumber Name LinkedAccountId)) :
    didKeysOf (.DidKey key value :: rest) =
      ⟨key.keyId, key.relationship, value.details⟩ :: didKeysOf rest := rfl

theorem didKeysOf_cons_web3 (key : Web3NameMerkleKey Name) (value : Web3NameMerkleValue BlockNumber)
    (rest : List (RevealedDidMerkleProofLeaf KeyId AccountId BlockNumber Name LinkedAccountId)) :
    didKeysOf (.Web3Name key value :: rest) = didKeysOf rest := rfl

theorem didKeysOf_cons_linked (key : LinkedAccountMerkleKey LinkedAccountId)
    (value : LinkedAccountMerkleValue)
    (rest : List (RevealedDidMerkleProofLeaf KeyId AccountId BlockNumber Name LinkedAccountId)) :
    didKeysOf (.LinkedAccount key value :: rest) = didKeysOf rest := rfl

theorem linkedOf_nil :
    linkedOf ([] : List (RevealedDidMerkleProofLeaf KeyId AccountId BlockNumber Name LinkedAccountId)) = [] := rfl

theorem linkedOf_cons_didKey (key : DidKeyMerkleKey KeyId)
    (value : DidKeyMerkleValue BlockNumber AccountId)
    (rest : List (RevealedDidMerkleProofLeaf KeyId AccountId BlockNumber Name LinkedAccountId)) :
    linkedOf (.DidKey key value :: rest) = linkedOf rest := rfl

theorem linkedOf_cons_web3 (key : Web3NameMerkleKey Name) (value : Web3NameMerkleValue BlockNumber)
    (rest : List (RevealedDidMerkleProofLeaf KeyId AccountId BlockNumber Name LinkedAccountId)) :
    linkedOf (.Web3Name key value :: rest) = linkedOf rest := rfl

theorem linkedOf_cons_linked (key : LinkedAccountMerkleKey LinkedAccountId)
    (value : LinkedAccountMerkleValue)
    (rest : List (RevealedDidMerkleProofLeaf KeyId AccountId BlockNumber Name LinkedAccountId)) :
    linkedOf (.LinkedAccount key value :: rest) = key.accountId :: linkedOf rest := rfl

theorem lastWeb3Of_nil :
    lastWeb3Of ([] : List (RevealedDidMerkleProofLeaf KeyId AccountId BlockNumber Name LinkedAccountId)) = none := rfl

theorem lastWeb3Of_cons
    (leaf : RevealedDidMerkleProofLeaf KeyId AccountId BlockNumber Name LinkedAccountId)
    (rest : List (RevealedDidMerkleProofLeaf KeyId AccountId BlockNumber Name LinkedAccountId)) :
    lastWeb3Of (leaf :: rest) = (lastWeb3Of rest).or (web3Of leaf) := by
  unfold lastWeb3Of
  cases h : web3Of leaf with
  | none => simp [List.filterMap_cons, h]
  | some b =>
    simp only [List.filterMap_cons, h]
    cases hf : rest.filterMap web3Of with
    | nil => simp
    | cons c t =>
      have hs : ((c :: t).getLast?).isSome := List.getLast?_isSome.mpr (by simp)
      obtain ⟨y, hy⟩ := Option.isSome_iff_exists.mp hs
      rw [List.getLast?_cons_cons, hy, Option.or]

theorem processLeaf_didKey_ok (maxKeys maxAccounts : Nat)
    (keys : List (RevealedDidKey KeyId BlockNumber AccountId))
    (w : Option (RevealedWeb3Name Name BlockNumber)) (accts : List LinkedAccountId)
    (key : DidKeyMerkleKey KeyId) (value : DidKeyMerkleValue BlockNumber AccountId)
    (h : keys.length < maxKeys) :
    processLeaf maxKeys maxAccounts (keys, w, accts) (.DidKey key value) =
      .ok (keys ++ [⟨key.keyId, key.relationship, value.details⟩], w, accts) := by
  simp [processLeaf, tryPush, h]

theorem processLeaf_didKey_err (maxKeys maxAccounts : Nat)
    (keys : List (RevealedDidKey KeyId BlockNumber AccountId))
    (w : Option (RevealedWeb3Name Name BlockNumber)) (accts : List LinkedAccountId)
    (key : DidKeyMerkleKey KeyId) (value : DidKeyMerkleValue BlockNumber AccountId)
    (h : ¬ keys.length < maxKeys) :
    processLeaf maxKeys maxAccounts (keys, w, accts) (.DidKey key value) =
      .error .TooManyRevealedKeys := by
  simp [processLeaf, tryPush, h]

theorem processLeaf_web3 (maxKeys maxAccounts : Nat)
    (keys : List (RevealedDidKey KeyId BlockNumber AccountId))
    (w : Option (RevealedWeb3Name Name BlockNumber)) (accts : List LinkedAccountId)
    (key : Web3NameMerkleKey Name) (value : Web3NameMerkleValue BlockNumber) :
    processLeaf maxKeys maxAccounts (keys, w, accts) (.Web3Name key value) =
      .ok (keys, some ⟨key.web3Name, value.blockNumber⟩, accts) := rfl

theorem processLeaf_linked_ok (maxKeys maxAccounts : Nat)
    (keys : List (RevealedDidKey KeyId BlockNumber AccountId))
    (w : Option (RevealedWeb3Name Name BlockNumber)) (accts : List LinkedAccountId)
    (key : LinkedAccountMerkleKey LinkedAccountId) (value : LinkedAccountMerkleValue)
    (h : accts.length < maxAccounts) :
    processLeaf maxKeys maxAccounts (keys, w, accts) (.LinkedAccount key value) =
      .ok (keys, w, accts ++ [key.accountId]) := by
  simp [processLeaf, tryPush, h]

theorem processLeaf_linked_err (maxKeys maxAccounts : Nat)
    (keys : List (RevealedDidKey KeyId BlockNumber AccountId))
    (w : Option (RevealedWeb3Name Name BlockNumber)) (accts : List LinkedAccountId)
    (key : LinkedAccountMerkleKey LinkedAccountId) (value : LinkedAccountMerkleValue)
    (h : ¬ accts.length < maxAccounts) :
    processLeaf maxKeys maxAccounts (keys, w, accts) (.LinkedAccount key value) =
      .error .TooManyRevealedAccounts := by
  simp [processLeaf, tryPush, h]

theorem tryFold_cons_ok (f : s → α → Except ε s) (acc acc2 : s) (a : α) (l : List α)
    (h : f acc a = .ok acc2) : tryFold f acc (a :: l) = tryFold f acc2 l := by
  simp [tryFold, h]

theorem tryFold_cons_err (f : s → α → Except ε s) (acc : s) (e : ε) (a : α) (l : List α)
    (h : f acc a = .error e) : tryFold f acc (a :: l) = .error e := by
  simp [tryFold, h]

/-! ### Characterization of the aggregation fold -/

theorem tryFold_processLeaf_ok_of_bounds (maxKeys maxAccounts : Nat)
    (leaves : List (RevealedDidMerkleProofLeaf KeyId AccountId BlockNumber Name LinkedAccountId)) :
    ∀ (keys : List (RevealedDidKey KeyId BlockNumber AccountId))
      (w : Option (RevealedWeb3Name Name BlockNumber)) (accts : List LinkedAccountId),
      keys.length + (didKeysOf leaves).length ≤ maxKeys →
      accts.length + (linkedOf leaves).length ≤ maxAccounts →
      tryFold (processLeaf maxKeys maxAccounts) (keys, w, accts) leaves =
        .ok (keys ++ didKeysOf leaves, (lastWeb3Of leaves).or w, accts ++ linkedOf leaves) := by
  induction leaves with
  | nil =>
    intro keys w accts _ _
    simp [tryFold, didKeysOf_nil, linkedOf_nil, lastWeb3Of_nil]
  | cons leaf rest ih =>
    intro keys w accts hk ha
    cases leaf with
    | DidKey key value =>
      rw [didKeysOf_cons_didKey] at hk
      rw [linkedOf_cons_didKey] at ha
      have hlt : keys.length < maxKeys := by simp at hk; omega
      rw [tryFold_cons_ok _ _ _ _ _ (processLeaf_didKey_ok _ _ _ _ _ _ _ hlt)]
      rw [ih _ _ _ (by simp at hk ⊢; omega) ha]
      rw [didKeysOf_cons_didKey, linkedOf_cons_didKey, lastWeb3Of_cons]
      simp [web3Of]
    | Web3Name key value =>
      rw [didKeysOf_cons_web3] at hk
      rw [linkedOf_cons_web3] at ha
      rw [tryFold_cons_ok _ _ _ _ _ (processLeaf_web3 _ _ _ _ _ _ _)]
      rw [ih _ _ _ hk ha]
      rw [didKeysOf_cons_web3, linkedOf_cons_web3, lastWeb3Of_cons]
      simp [web3Of, Option.or_assoc]
    | LinkedAccount key value =>
      rw [didKeysOf_cons_linked] at hk
      rw [linkedOf_cons_linked] at ha
      have hlt : accts.length < maxAccounts := by simp at ha; omega
      rw [tryFold_cons_ok _ _ _ _ _ (processLeaf_linked_ok _ _ _ _ _ _ _ hlt)]
      rw [ih _ _ _ hk (by simp at ha ⊢; omega)]
      rw [didKeysOf_cons_linked, linkedOf_cons_linked, lastWeb3Of_cons]
      simp [web3Of]

theorem tryFold_processLeaf_ok_inv (maxKeys maxAccounts : Nat)
    (leaves : List (RevealedDidMerkleProofLeaf KeyId AccountId BlockNumber Name LinkedAccountId)) :
    ∀ (keys keys2 : List (RevealedDidKey KeyId BlockNumber AccountId))
      (w w2 : Option (RevealedWeb3Name Name BlockNumber)) (accts accts2 : List LinkedAccountId),
      tryFold (processLeaf maxKeys maxAccounts) (keys, w, accts) leaves = .ok (keys2, w2, accts2) →
      keys2 = keys ++ didKeysOf leaves ∧ w2 = (lastWeb3Of leaves).or w ∧
        accts2 = accts ++ linkedOf leaves := by
  induction leaves with
  | nil =>
    intro keys keys2 w w2 accts accts2 h
    simp [tryFold] at h
    obtain ⟨h1, h2, h3⟩ := h
    simp [didKeysOf_nil, linkedOf_nil, lastWeb3Of_nil, h1, h2, h3]
  | cons leaf rest ih =>
    intro keys keys2 w w2 accts accts2 h
    cases leaf with
    | DidKey key value =>
      by_cases hlt : keys.length < maxKeys
      · rw [tryFold_cons_ok _ _ _ _ _ (processLeaf_didKey_ok _ _ _ _ _ _ _ hlt)] at h
        obtain ⟨h1, h2, h3⟩ := ih _ _ _ _ _ _ h
        rw [didKeysOf_cons_didKey, linkedOf_cons_didKey, lastWeb3Of_cons]
        simp [web3Of, h1, h2, h3]
      · rw [tryFold_cons_err _ _ _ _ _ (processLeaf_didKey_err _ _ _ _ _ _ _ hlt)] at h
        simp at h
    | Web3Name key value =>
      rw [tryFold_cons_ok _ _ _ _ _ (processLeaf_web3 _ _ _ _ _ _ _)] at h
      obtain ⟨h1, h2, h3⟩ := ih _ _ _ _ _ _ h
      rw [didKeysOf_cons_web3, linkedOf_cons_web3, lastWeb3Of_cons]
      simp [web3Of, h1, h2, h3, Option.or_assoc]
    | LinkedAccount key value =>
      by_cases hlt : accts.length < maxAccounts
      · rw [tryFold_cons_ok _ _ _ _ _ (processLeaf_linked_ok _ _ _ _ _ _ _ hlt)] at h
        obtain ⟨h1, h2, h3⟩ := ih _ _ _ _ _ _ h
        rw [didKeysOf_cons_linked, linkedOf_cons_linked, lastWeb3Of_cons]
        simp [web3Of, h1, h2, h3]
      · rw [tryFold_cons_err _ _ _ _ _ (processLeaf_linked_err _ _ _ _ _ _ _ hlt)] at h
        simp at h

theorem tryFold_processLeaf_ok_length (maxKeys maxAccounts : Nat)
    (leaves : List (RevealedDidMerkleProofLeaf KeyId AccountId BlockNumber Name LinkedAccountId)) :
    ∀ (keys keys2 : List (RevealedDidKey KeyId BlockNumber AccountId))
      (w w2 : Option (RevealedWeb3Name Name BlockNumber)) (accts accts2 : List LinkedAccountId),
      tryFold (processLeaf maxKeys maxAccounts) (keys, w, accts) leaves = .ok (keys2, w2, accts2) →
      keys.length ≤ maxKeys → accts.length ≤ maxAccounts →
      keys2.length ≤ maxKeys ∧ accts2.length ≤ maxAccounts := by
  induction leaves with
  | nil =>
    intro keys keys2 w w2 accts accts2 h hk ha
    simp [tryFold] at h
    obtain ⟨h1, _, h3⟩ := h
    rw [← h1, ← h3]
    exact ⟨hk, ha⟩
  | cons leaf rest ih =>
    intro keys keys2 w w2 accts accts2 h hk ha
    cases leaf with
    | DidKey key value =>
      by_cases hlt : keys.length < maxKeys
      · rw [tryFold_cons_ok _ _ _ _ _ (processLeaf_didKey_ok _ _ _ _ _ _ _ hlt)] at h
        exact ih _ _ _ _ _ _ h (by simp; omega) ha
      · rw [tryFold_cons_err _ _ _ _ _ (processLeaf_didKey_err _ _ _ _ _ _ _ hlt)] at h
        simp at h
    | Web3Name key value =>
      rw [tryFold_cons_ok _ _ _ _ _ (processLeaf_web3 _ _ _ _ _ _ _)] at h
      exact ih _ _ _ _ _ _ h hk ha
    | LinkedAccount key value =>
      by_cases hlt : accts.length < maxAccounts
      · rw [tryFold_cons_ok _ _ _ _ _ (processLeaf_linked_ok _ _ _ _ _ _ _ hlt)] at h
        exact ih _ _ _ _ _ _ h hk (by simp; omega)
      · rw [tryFold_cons_err _ _ _ _ _ (processLeaf_linked_err _ _ _ _ _ _ _ hlt)] at h
        simp at h

theorem tryFold_processLeaf_too_many_keys (maxKeys maxAccounts : Nat)
    (leaves : List (RevealedDidMerkleProofLeaf KeyId AccountId BlockNumber Name LinkedAccountId)) :
    ∀ (keys : List (RevealedDidKey KeyId BlockNumber AccountId))
      (w : Option (RevealedWeb3Name Name BlockNumber)) (accts : List LinkedAccountId),
      maxKeys < keys.length + (didKeysOf leaves).length →
      keys.length ≤ maxKeys →
      accts.length + (linkedOf leaves).length ≤ maxAccounts →
      tryFold (processLeaf maxKeys maxAccounts) (keys, w, accts) leaves =
        .error .TooManyRevealedKeys := by
  induction leaves with
  | nil =>
    intro keys w accts h hk _
    rw [didKeysOf_nil] at h
    simp at h
    omega
  | cons leaf rest ih =>
    intro keys w accts h hk ha
    cases leaf with
    | DidKey key value =>
      rw [didKeysOf_cons_didKey] at h
      rw [linkedOf_cons_didKey] at ha
      by_cases hlt : keys.length < maxKeys
      · rw [tryFold_cons_ok _ _ _ _ _ (processLeaf_didKey_ok _ _ _ _ _ _ _ hlt)]
        exact ih _ _ _ (by simp at h ⊢; omega) (by simp; omega) ha
      · rw [tryFold_cons_err _ _ _ _ _ (processLeaf_didKey_err _ _ _ _ _ _ _ hlt)]
    | Web3Name key value =>
      rw [didKeysOf_cons_web3] at h
      rw [linkedOf_cons_web3] at ha
      rw [tryFold_cons_ok _ _ _ _ _ (processLeaf_web3 _ _ _ _ _ _ _)]
      exact ih _ _ _ h hk ha
    | LinkedAccount key value =>
      rw [didKeysOf_cons_linked] at h
      rw [linkedOf_cons_linked] at ha
      have hlt : accts.length < maxAccounts := by simp at ha; omega
      rw [tryFold_cons_ok _ _ _ _ _ (processLeaf_linked_ok _ _ _ _ _ _ _ hlt)]
      exact ih _ _ _ h hk (by simp at ha ⊢; omega)

theorem tryFold_processLeaf_too_many_accounts (maxKeys maxAccounts : Nat)
    (leaves : List (RevealedDidMerkleProofLeaf KeyId AccountId BlockNumber Name LinkedAccountId)) :
    ∀ (keys : List (RevealedDidKey KeyId BlockNumber AccountId))
      (w : Option (RevealedWeb3Name Name BlockNumber)) (accts : List LinkedAccountId),
      maxAccounts < accts.length + (linkedOf leaves).length →
      accts.length ≤ maxAccounts →
      keys.length + (didKeysOf leaves).length ≤ maxKeys →
      tryFold (processLeaf maxKeys maxAccounts) (keys, w, accts) leaves =
        .error .TooManyRevealedAccounts := by
  induction leaves with
  | nil =>
    intro keys w accts h ha _
    rw [linkedOf_nil] at h
    simp at h
    omega
  | cons leaf rest ih =>
    intro keys w accts h ha hk
    cases leaf with
    | DidKey key value =>
      rw [linkedOf_cons_didKey] at h
      rw [didKeysOf_cons_didKey] at hk
      have hlt : keys.length < maxKeys := by simp at hk; omega
      rw [tryFold_cons_ok _ _ _ _ _ (processLeaf_didKey_ok _ _ _ _ _ _ _ hlt)]
      exact ih _ _ _ h ha (by simp at hk ⊢; omega)
    | Web3Name key value =>
      rw [linkedOf_cons_web3] at h
      rw [didKeysOf_cons_web3] at hk
      rw [tryFold_cons_ok _ _ _ _ _ (processLeaf_web3 _ _ _ _ _ _ _)]
      exact ih _ _ _ h ha hk
    | LinkedAccount key value =>
      rw [linkedOf_cons_linked] at h
      rw [didKeysOf_cons_linked] at hk
      by_cases hlt : accts.length < maxAccounts
      · rw [tryFold_cons_ok _ _ _ _ _ (processLeaf_linked_ok _ _ _ _ _ _ _ hlt)]
        exact ih _ _ _ (by simp at h ⊢; omega) (by simp; omega) hk
      · rw [tryFold_cons_err _ _ _ _ _ (processLeaf_linked_err _ _ _ _ _ _ _ hlt)]

theorem lastWeb3Of_isSome_any
    (leaves : List (RevealedDidMerkleProofLeaf KeyId AccountId BlockNumber Name LinkedAccountId)) :
    (lastWeb3Of leaves).isSome = leaves.any fun l => (web3Of l).isSome := by
  induction leaves with
  | nil => rfl
  | cons leaf rest ih =>
    rw [lastWeb3Of_cons, List.any_cons, Option.isSome_or, ih, Bool.or_comm]

theorem aggregateLeaves_ok_of_bounds (maxKeys maxAccounts : Nat)
    (leaves : List (RevealedDidMerkleProofLeaf KeyId AccountId BlockNumber Name LinkedAccountId))
    (h1 : (didKeysOf leaves).length ≤ maxKeys) (h2 : (linkedOf leaves).length ≤ maxAccounts) :
    aggregateLeaves maxKeys maxAccounts leaves =
      .ok ⟨didKeysOf leaves, lastWeb3Of leaves, linkedOf leaves⟩ := by
  unfold aggregateLeaves
  rw [tryFold_processLeaf_ok_of_bounds maxKeys maxAccounts leaves [] none [] (by simpa) (by simpa)]
  simp

theorem aggregateLeaves_ok_inv (maxKeys maxAccounts : Nat)
    (leaves : List (RevealedDidMerkleProofLeaf KeyId AccountId BlockNumber Name LinkedAccountId))
    (res : RevealedDidMerkleProofLeaves KeyId AccountId BlockNumber Name LinkedAccountId)
    (h : aggregateLeaves maxKeys maxAccounts leaves = .ok res) :
    res = ⟨didKeysOf leaves, lastWeb3Of leaves, linkedOf leaves⟩ ∧
      res.did_keys.length ≤ maxKeys ∧ res.linked_accounts.length ≤ maxAccounts := by
  unfold aggregateLeaves at h
  cases hf : tryFold (processLeaf maxKeys maxAccounts) ([], none, []) leaves with
  | error e => rw [hf] at h; simp at h
  | ok acc =>
    obtain ⟨keys2, w2, accts2⟩ := acc
    rw [hf] at h
    simp only [Except.ok.injEq] at h
    obtain ⟨hk2, hw2, ha2⟩ := tryFold_processLeaf_ok_inv maxKeys maxAccounts leaves _ _ _ _ _ _ hf
    obtain ⟨hlk, hla⟩ :=
      tryFold_processLeaf_ok_length maxKeys maxAccounts leaves _ _ _ _ _ _ hf (by simp) (by simp)
    rw [← h]
    simp only [hk2, hw2, ha2] at hlk hla ⊢
    simp at hlk hla ⊢
    exact ⟨hlk, hla⟩

theorem aggregateLeaves_too_many_keys (maxKeys maxAccounts : Nat)
    (leaves : List (RevealedDidMerkleProofLeaf KeyId AccountId BlockNumber Name LinkedAccountId))
    (h : maxKeys < (didKeysOf leaves).length) (ha : (linkedOf leaves).length ≤ maxAccounts) :
    aggregateLeaves maxKeys maxAccounts leaves = .error .TooManyRevealedKeys := by
  unfold aggregateLeaves
  rw [tryFold_processLeaf_too_many_keys maxKeys maxAccounts leaves [] none []
    (by simpa) (by simp) (by simpa)]

theorem aggregateLeaves_too_many_accounts (maxKeys maxAccounts : Nat)
    (leaves : List (RevealedDidMerkleProofLeaf KeyId AccountId BlockNumber Name LinkedAccountId))
    (h : maxAccounts < (linkedOf leaves).length) (hk : (didKeysOf leaves).length ≤ maxKeys) :
    aggregateLeaves maxKeys maxAccounts leaves = .error .TooManyRevealedAccounts := by
  unfold aggregateLeaves
  rw [tryFold_processLeaf_too_many_accounts maxKeys maxAccounts leaves [] none []
    (by simpa) (by simp) (by simpa)]

theorem verificationRelationship_scaleEncode_injective :
    Function.Injective DidVerificationKeyRelationship.scaleEncode := by
  intro a b h
  cases a <;> cases b <;> first
    | rfl
    | simp [DidVerificationKeyRelationship.scaleEncode] at h

theorem didKeyRelationship_scaleEncode_injective :
    Function.Injective DidKeyRelationship.scaleEncode := by
  intro a b h
  cases a with
  | Encryption =>
    cases b with
    | Encryption => rfl
    | Verification relb => simp [DidKeyRelationship.scaleEncode] at h
  | Verification rela =>
    cases b with
    | Encryption => simp [DidKeyRelationship.scaleEncode] at h
    | Verification relb =>
      simp only [DidKeyRelationship.scaleEncode, List.cons.injEq, true_and] at h
      exact congrArg _ (verificationRelationship_scaleEncode_injective h)

theorem encNat_injective : Function.Injective encNat := by
  intro a b h
  simpa [encNat] using h

/-! ### Claim theorems -/

/-- C1 (counterexample): `encoded_key` is not injective across leaf kinds.
At the `Nat` instantiation of the generics (one-byte encodings, as for
`u8`), the `Web3Name` leaf with name 5 and the `LinkedAccount` leaf with
account 5 are semantically distinct leaves of different kinds, yet both
encode to the key bytes `[5]`: the encoding adds no leaf-kind
discriminant, so the two leaves occupy the same trie position. -/
theorem encoded_key_collision_across_kinds :
    natWeb3NameLeaf 5 0 ≠ natLinkedAccountLeaf 5 ∧
      RevealedDidMerkleProofLeaf.encoded_key encNat encNat encNat (natWeb3NameLeaf 5 0) =
        RevealedDidMerkleProofLeaf.encoded_key encNat encNat encNat (natLinkedAccountLeaf 5) :=
  ⟨by decide, rfl⟩

/-- C1 (amended): within each leaf kind, `encoded_key` is injective on the
key component: provided the key-identifier encoding is injective and of
fixed width and the web3name and linked-account encodings are injective,
two leaves of the same kind with different key components always receive
different key bytes. (Across different leaf kinds no such guarantee
exists, since the encoding carries no kind discriminant.) -/
theorem encoded_key_injective_within_kind
    (encKeyId : KeyId → Bytes) (encName : Name → Bytes) (encLinkedAccountId : LinkedAccountId → Bytes)
    (n : Nat) (hKlen : ∀ k, (encKeyId k).length = n)
    (hK : Function.Injective encKeyId) (hW : Function.Injective encName)
    (hL : Function.Injective encLinkedAccountId) :
    (∀ (k1 k2 : DidKeyMerkleKey KeyId) (v1 v2 : DidKeyMerkleValue BlockNumber AccountId),
        k1 ≠ k2 →
        RevealedDidMerkleProofLeaf.encoded_key encKeyId encName encLinkedAccountId
            (.DidKey k1 v1 :
              RevealedDidMerkleProofLeaf KeyId AccountId BlockNumber Name LinkedAccountId) ≠
          RevealedDidMerkleProofLeaf.encoded_key encKeyId encName encLinkedAccountId
            (.DidKey k2 v2 :
              RevealedDidMerkleProofLeaf KeyId AccountId BlockNumber Name LinkedAccountId)) ∧
    (∀ (k1 k2 : Web3NameMerkleKey Name) (v1 v2 : Web3NameMerkleValue BlockNumber),
        k1 ≠ k2 →
        RevealedDidMerkleProofLeaf.encoded_key encKeyId encName encLinkedAccountId
            (.Web3Name k1 v1 :
              RevealedDidMerkleProofLeaf KeyId AccountId BlockNumber Name LinkedAccountId) ≠
          RevealedDidMerkleProofLeaf.encoded_key encKeyId encName encLinkedAccountId
            (.Web3Name k2 v2 :
              RevealedDidMerkleProofLeaf KeyId AccountId BlockNumber Name LinkedAccountId)) ∧
    (∀ (k1 k2 : LinkedAccountMerkleKey LinkedAccountId) (v1 v2 : LinkedAccountMerkleValue),
        k1 ≠ k2 →
        RevealedDidMerkleProofLeaf.encoded_key encKeyId encName encLinkedAccountId
            (.LinkedAccount k1 v1 :
              RevealedDidMerkleProofLeaf KeyId AccountId BlockNumber Name LinkedAccountId) ≠
          RevealedDidMerkleProofLeaf.encoded_key encKeyId encName encLinkedAccountId
            (.LinkedAccount k2 v2 :
              RevealedDidMerkleProofLeaf KeyId AccountId BlockNumber Name LinkedAccountId)) := by
  refine ⟨?_, ?_, ?_⟩
  · intro k1 k2 v1 v2 hne h
    simp only [RevealedDidMerkleProofLeaf.encoded_key] at h
    obtain ⟨h1, h2⟩ := List.append_inj h (by rw [hKlen, hKlen])
    apply hne
    obtain ⟨a1, r1⟩ := k1
    obtain ⟨a2, r2⟩ := k2
    simp only [DidKeyMerkleKey.mk.injEq]
    exact ⟨hK h1, didKeyRelationship_scaleEncode_injective h2⟩
  · intro k1 k2 v1 v2 hne h
    simp only [RevealedDidMerkleProofLeaf.encoded_key] at h
    apply hne
    obtain ⟨w1⟩ := k1
    obtain ⟨w2⟩ := k2
    simp only [Web3NameMerkleKey.mk.injEq]
    exact hW h
  · intro k1 k2 v1 v2 hne h
    simp only [RevealedDidMerkleProofLeaf.encoded_key] at h
    apply hne
    obtain ⟨a1⟩ := k1
    obtain ⟨a2⟩ := k2
    simp only [LinkedAccountMerkleKey.mk.injEq]
    exact hL h

/-- Witness for the amended C1: at the `Nat` instantiation with the
injective one-byte encoding, two `DidKey` leaves with different key
identifiers receive different key bytes. -/
theorem encoded_key_injective_within_kind_witness :
    RevealedDidMerkleProofLeaf.encoded_key encNat encNat encNat (natDidKeyLeaf 1 0 7) ≠
      RevealedDidMerkleProofLeaf.encoded_key encNat encNat encNat (natDidKeyLeaf 2 0 7) :=
  (encoded_key_injective_within_kind encNat encNat encNat 1 (fun _ => rfl)
      encNat_injective encNat_injective encNat_injective).1
    ⟨1, .Verification .Authentication⟩ ⟨2, .Verification .Authentication⟩
    ⟨⟨Sum.inl [], 7⟩⟩ ⟨⟨Sum.inl [], 7⟩⟩ (by decide)

/-- C9: `encoded_key` depends only on the key component of a leaf — for
leaves of the same kind with equal key components, the encoded key bytes
agree whatever the value components are — and symmetrically
`encoded_value` depends only on the value component. -/
theorem encoded_key_value_componentwise
    (encKeyId : KeyId → Bytes) (encName : Name → Bytes) (encLinkedAccountId : LinkedAccountId → Bytes)
    (encDetails : DidPublicKeyDetails BlockNumber AccountId → Bytes)
    (encBlockNumber : BlockNumber → Bytes) :
    (∀ (key : DidKeyMerkleKey KeyId) (v1 v2 : DidKeyMerkleValue BlockNumber AccountId),
        RevealedDidMerkleProofLeaf.encoded_key encKeyId encName encLinkedAccountId
            (.DidKey key v1 :
              RevealedDidMerkleProofLeaf KeyId AccountId BlockNumber Name LinkedAccountId) =
          RevealedDidMerkleProofLeaf.encoded_key encKeyId encName encLinkedAccountId
            (.DidKey key v2 :
              RevealedDidMerkleProofLeaf KeyId AccountId BlockNumber Name LinkedAccountId)) ∧
    (∀ (key : Web3NameMerkleKey Name) (v1 v2 : Web3NameMerkleValue BlockNumber),
        RevealedDidMerkleProofLeaf.encoded_key encKeyId encName encLinkedAccountId
            (.Web3Name key v1 :
              RevealedDidMerkleProofLeaf KeyId AccountId BlockNumber Name LinkedAccountId) =
          RevealedDidMerkleProofLeaf.encoded_key encKeyId encName encLinkedAccountId
            (.Web3Name key v2 :
              RevealedDidMerkleProofLeaf KeyId AccountId BlockNumber Name LinkedAccountId)) ∧
    (∀ (key : LinkedAccountMerkleKey LinkedAccountId) (v1 v2 : LinkedAccountMerkleValue),
        RevealedDidMerkleProofLeaf.encoded_key encKeyId encName encLinkedAccountId
            (.LinkedAccount key v1 :
              RevealedDidMerkleProofLeaf KeyId AccountId BlockNumber Name LinkedAccountId) =
          RevealedDidMerkleProofLeaf.encoded_key encKeyId encName encLinkedAccountId
            (.LinkedAccount key v2 :
              RevealedDidMerkleProofLeaf KeyId AccountId BlockNumber Name LinkedAccountId)) ∧
    (∀ (k1 k2 : DidKeyMerkleKey KeyId) (v : DidKeyMerkleValue BlockNumber AccountId),
        RevealedDidMerkleProofLeaf.encoded_value encDetails encBlockNumber
            (.DidKey k1 v :
              RevealedDidMerkleProofLeaf KeyId AccountId BlockNumber Name LinkedAccountId) =
          RevealedDidMerkleProofLeaf.encoded_value encDetails encBlockNumber
            (.DidKey k2 v :
              RevealedDidMerkleProofLeaf KeyId AccountId BlockNumber Name LinkedAccountId)) ∧
    (∀ (k1 k2 : Web3NameMerkleKey Name) (v : Web3NameMerkleValue BlockNumber),
        RevealedDidMerkleProofLeaf.encoded_value encDetails encBlockNumber
            (.Web3Name k1 v :
              RevealedDidMerkleProofLeaf KeyId AccountId BlockNumber Name LinkedAccountId) =
          RevealedDidMerkleProofLeaf.encoded_value encDetails encBlockNumber
            (.Web3Name k2 v :
              RevealedDidMerkleProofLeaf KeyId AccountId BlockNumber Name LinkedAccountId)) ∧
    (∀ (k1 k2 : LinkedAccountMerkleKey LinkedAccountId) (v : LinkedAccountMerkleValue),
        RevealedDidMerkleProofLeaf.encoded_value encDetails encBlockNumber
            (.LinkedAccount k1 v :
              RevealedDidMerkleProofLeaf KeyId AccountId BlockNumber Name LinkedAccountId) =
          RevealedDidMerkleProofLeaf.encoded_value encDetails encBlockNumber
            (.LinkedAccount k2 v :
              RevealedDidMerkleProofLeaf KeyId AccountId BlockNumber Name LinkedAccountId)) := by
  refine ⟨?_, ?_, ?_, ?_, ?_, ?_⟩ <;> intros <;> rfl

/-- C8: the conversion from `DidMerkleProofVerifierError` to its numeric
code maps `InvalidMerkleProof` to 0, `TooManyRevealedKeys` to 1 and
`TooManyRevealedAccounts` to 2, and is injective: the three error kinds
have distinct stable codes. -/
theorem error_code_mapping :
    DidMerkleProofVerifierError.toU8 .InvalidMerkleProof = 0 ∧
    DidMerkleProofVerifierError.toU8 .TooManyRevealedKeys = 1 ∧
    DidMerkleProofVerifierError.toU8 .TooManyRevealedAccounts = 2 ∧
    Function.Injective DidMerkleProofVerifierError.toU8 := by
  refine ⟨rfl, rfl, rfl, fun a b h => ?_⟩
  cases a <;> cases b <;> first
    | rfl
    | simp [DidMerkleProofVerifierError.toU8] at h

/-- C3: whenever the underlying trie-proof check fails — with an arbitrary
error value `e` of an arbitrary error type `E`, covering every internal
failure reason — `verify_dip_merkle_proof` returns exactly
`Err(InvalidMerkleProof)`, a single error kind carrying no further
detail, and no aggregate is produced. -/
theorem verify_trie_failure_collapses {Root BlindedValues E : Type}
    (trieVerify : Root → BlindedValues → List (Bytes × Option Bytes) → Except E Unit)
    (encKeyId : KeyId → Bytes) (encName : Name → Bytes)
    (encLinkedAccountId : LinkedAccountId → Bytes)
    (encDetails : DidPublicKeyDetails BlockNumber AccountId → Bytes)
    (encBlockNumber : BlockNumber → Bytes)
    (maxKeys maxAccounts : Nat) (root : Root)
    (proof : DidMerkleProof BlindedValues
      (RevealedDidMerkleProofLeaf KeyId AccountId BlockNumber Name LinkedAccountId))
    (e : E)
    (h : trieVerify root proof.blinded
        (proofLeavesOf encKeyId encName encLinkedAccountId encDetails encBlockNumber
          proof.revealed) = .error e) :
    verify_dip_merkle_proof trieVerify encKeyId encName encLinkedAccountId encDetails
        encBlockNumber maxKeys maxAccounts root proof = .error .InvalidMerkleProof := by
  unfold verify_dip_merkle_proof
  rw [h]

/-- Witness for C3: a trie check failing with internal error code 7 makes
the verifier answer `InvalidMerkleProof`. -/
theorem verify_trie_failure_collapses_witness :
    natVerifyErr 5 5 [natDidKeyLeaf 1 0 7] = .error .InvalidMerkleProof :=
  verify_trie_failure_collapses errTrie encNat encNat encNat encDetailsNat encNat 5 5 0
    ⟨[], [natDidKeyLeaf 1 0 7]⟩ 7 rfl

/-- C2 (counterexample): a proof revealing more than `maxKeys` `DidKey`
leaves does not always yield `TooManyRevealedKeys`. With `maxKeys = 0`:
(a) when the trie check fails, the verifier answers `InvalidMerkleProof`
instead; (b) with `maxAccounts = 0` and a `LinkedAccount` leaf placed
before the `DidKey` leaf, the fold hits the account bound first and
answers `TooManyRevealedAccounts` instead. -/
theorem verify_too_many_keys_counterexample :
    (0 < (didKeysOf [natDidKeyLeaf 1 0 7]).length ∧
      natVerifyErr 0 5 [natDidKeyLeaf 1 0 7] = .error .InvalidMerkleProof) ∧
    (0 < (didKeysOf [natLinkedAccountLeaf 3, natDidKeyLeaf 1 0 7]).length ∧
      natVerifyOk 0 0 [natLinkedAccountLeaf 3, natDidKeyLeaf 1 0 7] =
        .error .TooManyRevealedAccounts) :=
  ⟨⟨by decide, rfl⟩, ⟨by decide, rfl⟩⟩

/-- C2 (amended): for every proof that passes the trie check, revealing
more than `maxKeys` `DidKey` leaves while staying within the
`maxAccounts` bound on `LinkedAccount` leaves yields exactly
`Err(TooManyRevealedKeys)` and no aggregate; symmetrically, revealing
more than `maxAccounts` `LinkedAccount` leaves while staying within the
`maxKeys` bound yields exactly `Err(TooManyRevealedAccounts)` and no
aggregate. -/
theorem verify_bound_overflow_errors {Root BlindedValues E : Type}
    (trieVerify : Root → BlindedValues → List (Bytes × Option Bytes) → Except E Unit)
    (encKeyId : KeyId → Bytes) (encName : Name → Bytes)
    (encLinkedAccountId : LinkedAccountId → Bytes)
    (encDetails : DidPublicKeyDetails BlockNumber AccountId → Bytes)
    (encBlockNumber : BlockNumber → Bytes)
    (maxKeys maxAccounts : Nat) :
    (∀ (root : Root)
      (proof : DidMerkleProof BlindedValues
        (RevealedDidMerkleProofLeaf KeyId AccountId BlockNumber Name LinkedAccountId))
      (u : Unit),
      trieVerify root proof.blinded
          (proofLeavesOf encKeyId encName encLinkedAccountId encDetails encBlockNumber
            proof.revealed) = .ok u →
      maxKeys < (didKeysOf proof.revealed).length →
      (linkedOf proof.revealed).length ≤ maxAccounts →
      verify_dip_merkle_proof trieVerify encKeyId encName encLinkedAccountId encDetails
          encBlockNumber maxKeys maxAccounts root proof = .error .TooManyRevealedKeys) ∧
    (∀ (root : Root)
      (proof : DidMerkleProof BlindedValues
        (RevealedDidMerkleProofLeaf KeyId AccountId BlockNumber Name LinkedAccountId))
      (u : Unit),
      trieVerify root proof.blinded
          (proofLeavesOf encKeyId encName encLinkedAccountId encDetails encBlockNumber
            proof.revealed) = .ok u →
      maxAccounts < (linkedOf proof.revealed).length →
      (didKeysOf proof.revealed).length ≤ maxKeys →
      verify_dip_merkle_proof trieVerify encKeyId encName encLinkedAccountId encDetails
          encBlockNumber maxKeys maxAccounts root proof = .error .TooManyRevealedAccounts) := by
  constructor
  · intro root proof u htv hk ha
    unfold verify_dip_merkle_proof
    rw [htv]
    exact aggregateLeaves_too_many_keys maxKeys maxAccounts proof.revealed hk ha
  · intro root proof u htv ha hk
    unfold verify_dip_merkle_proof
    rw [htv]
    exact aggregateLeaves_too_many_accounts maxKeys maxAccounts proof.revealed ha hk

/-- Witness for the amended C2: with `maxKeys = 1`, two revealed `DidKey`
leaves yield `TooManyRevealedKeys`; with `maxAccounts = 1`, two revealed
`LinkedAccount` leaves yield `TooManyRevealedAccounts`. -/
theorem verify_bound_overflow_errors_witness :
    natVerifyOk 1 5 [natDidKeyLeaf 1 0 7, natDidKeyLeaf 2 0 7] =
        .error .TooManyRevealedKeys ∧
    natVerifyOk 5 1 [natLinkedAccountLeaf 3, natLinkedAccountLeaf 4] =
        .error .TooManyRevealedAccounts :=
  ⟨(verify_bound_overflow_errors okTrie encNat encNat encNat encDetailsNat encNat 1 5).1
      0 ⟨[], [natDidKeyLeaf 1 0 7, natDidKeyLeaf 2 0 7]⟩ () rfl (by decide) (by decide),
    (verify_bound_overflow_errors okTrie encNat encNat encNat encDetailsNat encNat 5 1).2
      0 ⟨[], [natLinkedAccountLeaf 3, natLinkedAccountLeaf 4]⟩ () rfl (by decide) (by decide)⟩

/-- C4: whenever `verify_dip_merkle_proof` succeeds, the returned
aggregate respects both capacity bounds — at most `maxKeys` DID keys and
at most `maxAccounts` linked accounts — and nothing was truncated to
achieve this: the collections are exactly the decoded `DidKey`
subsequence and the `LinkedAccount` id subsequence of the revealed
sequence. -/
theorem verify_ok_within_bounds {Root BlindedValues E : Type}
    (trieVerify : Root → BlindedValues → List (Bytes × Option Bytes) → Except E Unit)
    (encKeyId : KeyId → Bytes) (encName : Name → Bytes)
    (encLinkedAccountId : LinkedAccountId → Bytes)
    (encDetails : DidPublicKeyDetails BlockNumber AccountId → Bytes)
    (encBlockNumber : BlockNumber → Bytes)
    (maxKeys maxAccounts : Nat) (root : Root)
    (proof : DidMerkleProof BlindedValues
      (RevealedDidMerkleProofLeaf KeyId AccountId BlockNumber Name LinkedAccountId))
    (res : RevealedDidMerkleProofLeaves KeyId AccountId BlockNumber Name LinkedAccountId)
    (h : verify_dip_merkle_proof trieVerify encKeyId encName encLinkedAccountId encDetails
        encBlockNumber maxKeys maxAccounts root proof = .ok res) :
    res.did_keys.length ≤ maxKeys ∧ res.linked_accounts.length ≤ maxAccounts ∧
      res.did_keys = didKeysOf proof.revealed ∧
      res.linked_accounts = linkedOf proof.revealed := by
  unfold verify_dip_merkle_proof at h
  cases htv : trieVerify root proof.blinded
      (proofLeavesOf encKeyId encName encLinkedAccountId encDetails encBlockNumber
        proof.revealed) with
  | error e => rw [htv] at h; simp at h
  | ok u =>
    rw [htv] at h
    obtain ⟨h1, h2, h3⟩ := aggregateLeaves_ok_inv maxKeys maxAccounts proof.revealed res h
    subst h1
    exact ⟨h2, h3, rfl, rfl⟩

/-- Witness for C4: a successful concrete verification stays within the
bounds 1 and 1 and returns exactly the decoded subsequences. -/
theorem verify_ok_within_bounds_witness :
    ((⟨[⟨1, .Verification .Authentication, ⟨Sum.inl [], 7⟩⟩], some ⟨9, 4⟩, [3]⟩ :
        NatLeaves).did_keys.length ≤ 1 ∧
      (⟨[⟨1, .Verification .Authentication, ⟨Sum.inl [], 7⟩⟩], some ⟨9, 4⟩, [3]⟩ :
        NatLeaves).linked_accounts.length ≤ 1 ∧
      (⟨[⟨1, .Verification .Authentication, ⟨Sum.inl [], 7⟩⟩], some ⟨9, 4⟩, [3]⟩ :
        NatLeaves).did_keys =
        didKeysOf [natDidKeyLeaf 1 0 7, natWeb3NameLeaf 9 4, natLinkedAccountLeaf 3] ∧
      (⟨[⟨1, .Verification .Authentication, ⟨Sum.inl [], 7⟩⟩], some ⟨9, 4⟩, [3]⟩ :
        NatLeaves).linked_accounts =
        linkedOf [natDidKeyLeaf 1 0 7, natWeb3NameLeaf 9 4, natLinkedAccountLeaf 3]) :=
  verify_ok_within_bounds okTrie encNat encNat encNat encDetailsNat encNat 1 1 0
    ⟨[], [natDidKeyLeaf 1 0 7, natWeb3NameLeaf 9 4, natLinkedAccountLeaf 3]⟩
    ⟨[⟨1, .Verification .Authentication, ⟨Sum.inl [], 7⟩⟩], some ⟨9, 4⟩, [3]⟩ rfl

/-- C5: for every proof that passes the trie check and stays within both
capacity bounds while revealing two or more `Web3Name` leaves, the
verifier succeeds — duplicate names are not an error — and the returned
aggregate's web3name is the decoded form of the last `Web3Name` leaf in
proof order, earlier ones being overwritten. -/
theorem verify_web3name_last_write_wins {Root BlindedValues E : Type}
    (trieVerify : Root → BlindedValues → List (Bytes × Option Bytes) → Except E Unit)
    (encKeyId : KeyId → Bytes) (encName : Name → Bytes)
    (encLinkedAccountId : LinkedAccountId → Bytes)
    (encDetails : DidPublicKeyDetails BlockNumber AccountId → Bytes)
    (encBlockNumber : BlockNumber → Bytes)
    (maxKeys maxAccounts : Nat) (root : Root)
    (proof : DidMerkleProof BlindedValues
      (RevealedDidMerkleProofLeaf KeyId AccountId BlockNumber Name LinkedAccountId))
    (u : Unit)
    (htv : trieVerify root proof.blinded
        (proofLeavesOf encKeyId encName encLinkedAccountId encDetails encBlockNumber
          proof.revealed) = .ok u)
    (hk : (didKeysOf proof.revealed).length ≤ maxKeys)
    (ha : (linkedOf proof.revealed).length ≤ maxAccounts)
    (hw : 2 ≤ (proof.revealed.filterMap web3Of).length) :
    verify_dip_merkle_proof trieVerify encKeyId encName encLinkedAccountId encDetails
        encBlockNumber maxKeys maxAccounts root proof =
      .ok ⟨didKeysOf proof.revealed, lastWeb3Of proof.revealed, linkedOf proof.revealed⟩ ∧
    (lastWeb3Of proof.revealed).isSome = true := by
  constructor
  · unfold verify_dip_merkle_proof
    rw [htv]
    exact aggregateLeaves_ok_of_bounds maxKeys maxAccounts proof.revealed hk ha
  · have hne : proof.revealed.filterMap web3Of ≠ [] := by
      intro hnil
      rw [hnil] at hw
      simp at hw
    exact List.getLast?_isSome.mpr hne

/-- Witness for C5: revealing the names 9 (at block 4) and then 8 (at
block 2) returns the later claim ⟨8, 2⟩, with no error. -/
theorem verify_web3name_last_write_wins_witness :
    natVerifyOk 5 5 [natWeb3NameLeaf 9 4, natWeb3NameLeaf 8 2] = .ok ⟨[], some ⟨8, 2⟩, []⟩ ∧
    (lastWeb3Of [natWeb3NameLeaf 9 4, natWeb3NameLeaf 8 2]).isSome = true :=
  verify_web3name_last_write_wins okTrie encNat encNat encNat encDetailsNat encNat 5 5 0
    ⟨[], [natWeb3NameLeaf 9 4, natWeb3NameLeaf 8 2]⟩ () rfl (by decide) (by decide) (by decide)

/-- C6: every successful verification returns as `did_keys` exactly the
decoded `DidKey` subsequence of the revealed sequence in proof order, as
`linked_accounts` exactly the `LinkedAccount` id subsequence in proof
order, and as `web3_name` the decoded last `Web3Name` leaf — no
reordering, sorting or deduplication. -/
theorem verify_ok_exact_subsequences {Root BlindedValues E : Type}
    (trieVerify : Root → BlindedValues → List (Bytes × Option Bytes) → Except E Unit)
    (encKeyId : KeyId → Bytes) (encName : Name → Bytes)
    (encLinkedAccountId : LinkedAccountId → Bytes)
    (encDetails : DidPublicKeyDetails BlockNumber AccountId → Bytes)
    (encBlockNumber : BlockNumber → Bytes)
    (maxKeys maxAccounts : Nat) (root : Root)
    (proof : DidMerkleProof BlindedValues
      (RevealedDidMerkleProofLeaf KeyId AccountId BlockNumber Name LinkedAccountId))
    (res : RevealedDidMerkleProofLeaves KeyId AccountId BlockNumber Name LinkedAccountId)
    (h : verify_dip_merkle_proof trieVerify encKeyId encName encLinkedAccountId encDetails
        encBlockNumber maxKeys maxAccounts root proof = .ok res) :
    res.did_keys = didKeysOf proof.revealed ∧
      res.web3_name = lastWeb3Of proof.revealed ∧
      res.linked_accounts = linkedOf proof.revealed := by
  unfold verify_dip_merkle_proof at h
  cases htv : trieVerify root proof.blinded
      (proofLeavesOf encKeyId encName encLinkedAccountId encDetails encBlockNumber
        proof.revealed) with
  | error e => rw [htv] at h; simp at h
  | ok u =>
    rw [htv] at h
    obtain ⟨h1, _, _⟩ := aggregateLeaves_ok_inv maxKeys maxAccounts proof.revealed res h
    subst h1
    exact ⟨rfl, rfl, rfl⟩

/-- Witness for C6: a successful concrete verification with interleaved
leaf kinds returns the two linked accounts in their original order. -/
theorem verify_ok_exact_subsequences_witness :
    ((⟨[⟨2, .Verification .AssertionMethod, ⟨Sum.inl [], 5⟩⟩], none, [4, 3]⟩ :
        NatLeaves).did_keys =
        didKeysOf [natLinkedAccountLeaf 4, natDidKeyLeaf 2 1 5, natLinkedAccountLeaf 3] ∧
      (⟨[⟨2, .Verification .AssertionMethod, ⟨Sum.inl [], 5⟩⟩], none, [4, 3]⟩ :
        NatLeaves).web3_name =
        lastWeb3Of [natLinkedAccountLeaf 4, natDidKeyLeaf 2 1 5, natLinkedAccountLeaf 3] ∧
      (⟨[⟨2, .Verification .AssertionMethod, ⟨Sum.inl [], 5⟩⟩], none, [4, 3]⟩ :
        NatLeaves).linked_accounts =
        linkedOf [natLinkedAccountLeaf 4, natDidKeyLeaf 2 1 5, natLinkedAccountLeaf 3]) :=
  verify_ok_exact_subsequences okTrie encNat encNat encNat encDetailsNat encNat 3 3 0
    ⟨[], [natLinkedAccountLeaf 4, natDidKeyLeaf 2 1 5, natLinkedAccountLeaf 3]⟩
    ⟨[⟨2, .Verification .AssertionMethod, ⟨Sum.inl [], 5⟩⟩], none, [4, 3]⟩ rfl

/-- C7: a proof revealing no leaves, checked against the commitment of an
empty trie (the commitment being modelled extensionally by the empty
committed content, per the specification of the external trie check),
verifies successfully and returns the aggregate with no DID keys, no
web3name and no linked accounts. -/
theorem verify_empty_proof_empty_trie
    (encKeyId : KeyId → Bytes) (encName : Name → Bytes)
    (encLinkedAccountId : LinkedAccountId → Bytes)
    (encDetails : DidPublicKeyDetails BlockNumber AccountId → Bytes)
    (encBlockNumber : BlockNumber → Bytes)
    (maxKeys maxAccounts : Nat) (blinded : List Bytes) :
    verify_dip_merkle_proof spec_verify_trie_proof encKeyId encName encLinkedAccountId
        encDetails encBlockNumber maxKeys maxAccounts ([] : List (Bytes × Bytes))
        ⟨blinded,
          ([] : List (RevealedDidMerkleProofLeaf KeyId AccountId BlockNumber Name LinkedAccountId))⟩ =
      .ok ⟨[], none, []⟩ := rfl

/-- C10: on success the aggregate's web3name is present iff the revealed
sequence contains at least one `Web3Name` leaf; furthermore `Web3Name`
leaves never trigger the capacity errors — every proof passing the trie
check within the key and account bounds succeeds no matter how many
`Web3Name` leaves it reveals. -/
theorem verify_web3name_presence {Root BlindedValues E : Type}
    (trieVerify : Root → BlindedValues → List (Bytes × Option Bytes) → Except E Unit)
    (encKeyId : KeyId → Bytes) (encName : Name → Bytes)
    (encLinkedAccountId : LinkedAccountId → Bytes)
    (encDetails : DidPublicKeyDetails BlockNumber AccountId → Bytes)
    (encBlockNumber : BlockNumber → Bytes)
    (maxKeys maxAccounts : Nat) :
    (∀ (root : Root)
      (proof : DidMerkleProof BlindedValues
        (RevealedDidMerkleProofLeaf KeyId AccountId BlockNumber Name LinkedAccountId))
      (res : RevealedDidMerkleProofLeaves KeyId AccountId BlockNumber Name LinkedAccountId),
      verify_dip_merkle_proof trieVerify encKeyId encName encLinkedAccountId encDetails
          encBlockNumber maxKeys maxAccounts root proof = .ok res →
      res.web3_name.isSome = proof.revealed.any fun l => (web3Of l).isSome) ∧
    (∀ (root : Root)
      (proof : DidMerkleProof BlindedValues
        (RevealedDidMerkleProofLeaf KeyId AccountId BlockNumber Name LinkedAccountId))
      (u : Unit),
      trieVerify root proof.blinded
          (proofLeavesOf encKeyId encName encLinkedAccountId encDetails encBlockNumber
            proof.revealed) = .ok u →
      (didKeysOf proof.revealed).length ≤ maxKeys →
      (linkedOf proof.revealed).length ≤ maxAccounts →
      verify_dip_merkle_proof trieVerify encKeyId encName encLinkedAccountId encDetails
          encBlockNumber maxKeys maxAccounts root proof =
        .ok ⟨didKeysOf proof.revealed, lastWeb3Of proof.revealed,
          linkedOf proof.revealed⟩) := by
  constructor
  · intro root proof res h
    unfold verify_dip_merkle_proof at h
    cases htv : trieVerify root proof.blinded
        (proofLeavesOf encKeyId encName encLinkedAccountId encDetails encBlockNumber
          proof.revealed) with
    | error e => rw [htv] at h; simp at h
    | ok u =>
      rw [htv] at h
      obtain ⟨h1, _, _⟩ := aggregateLeaves_ok_inv maxKeys maxAccounts proof.revealed res h
      subst h1
      exact lastWeb3Of_isSome_any proof.revealed
  · intro root proof u htv hk ha
    unfold verify_dip_merkle_proof
    rw [htv]
    exact aggregateLeaves_ok_of_bounds maxKeys maxAccounts proof.revealed hk ha

/-- Witness for C10: a revealed single name makes the web3name present,
and three `Web3Name` leaves pass with both capacity bounds at zero. -/
theorem verify_web3name_presence_witness :
    ((⟨[], some ⟨9, 4⟩, []⟩ : NatLeaves).web3_name.isSome =
        [natWeb3NameLeaf 9 4].any fun l => (web3Of l).isSome) ∧
    natVerifyOk 0 0 [natWeb3NameLeaf 9 4, natWeb3NameLeaf 8 2, natWeb3NameLeaf 7 1] =
      .ok ⟨[], some ⟨7, 1⟩, []⟩ :=
  ⟨(verify_web3name_presence okTrie encNat encNat encNat encDetailsNat encNat 0 0).1
      0 ⟨[], [natWeb3NameLeaf 9 4]⟩ ⟨[], some ⟨9, 4⟩, []⟩ rfl,
    (verify_web3name_presence okTrie encNat encNat encNat encDetailsNat encNat 0 0).2
      0 ⟨[], [natWeb3NameLeaf 9 4, natWeb3NameLeaf 8 2, natWeb3NameLeaf 7 1]⟩ () rfl
      (by decide) (by decide)⟩

end KiltDip
